import Mathlib

/-!
Verification development for the SchoolLink client application
(`src/App.jsx`).  The definitions below are a shallow embedding of the
application's state and data-synchronization layer: the seed/live event
merge, the retry wrapper, the view rendering switch, the auth-state
observer callback, the calendar/details flow, the scores upsert and the
mock login check.  Each definition is translated directly from the
source; the theorems at the end of the file settle the specification
claims against these definitions.
-/

namespace SchoolLink

/-- A calendar date as carried by the `date` field of an event
(`"YYYY-MM-DD"` in the source), modelled structurally.  `month` is the
1-based month of the date string; the JavaScript code compares
`getMonth()`/`getFullYear()` of both sides of every comparison, so the
base of the month index is irrelevant as long as it is consistent. -/
structure SDate where
  year : Nat
  month : Nat
  day : Nat
deriving DecidableEq, Repr

/-- Chronological order on dates, as induced by the source comparator
`new Date(a.date) - new Date(b.date)`: lexicographic on
(year, month, day). -/
def dateLe (a b : SDate) : Bool :=
  a.year < b.year ||
    (a.year == b.year &&
      (a.month < b.month || (a.month == b.month && a.day ≤ b.day)))

/-- Strict chronological order (used to state that group keys are
strictly ascending). -/
def dateLt (a b : SDate) : Prop :=
  dateLe a b = true ∧ a ≠ b

/-- An event document: `{id, title, date, description, category}` as in
`MOCK_EVENTS` and the documents written by `AddEventView`. -/
structure Event where
  id : String
  title : String
  date : SDate
  description : String
  category : String
deriving DecidableEq, Repr

/-- The fixed seed set `MOCK_EVENTS` from the source (descriptions
abbreviated; only `id`, `title` and `date` ever feed the logic under
verification). -/
def MOCK_EVENTS : List Event :=
  [ { id := "1", title := "Sports Day", date := ⟨2025, 10, 15⟩,
      description := "Annual sports meet", category := "Sports" },
    { id := "2", title := "Essay Writing Competition", date := ⟨2025, 11, 5⟩,
      description := "A creative writing competition", category := "Academic" },
    { id := "3", title := "Model United Nations (MUN)", date := ⟨2025, 11, 20⟩,
      description := "Simulating UN procedures", category := "Club" },
    { id := "4", title := "Photography Contest", date := ⟨2025, 12, 1⟩,
      description := "Capture moments around the campus", category := "Art" },
    { id := "5", title := "Talent Hunt", date := ⟨2025, 12, 15⟩,
      description := "Showcase your skills", category := "Culture" } ]

/-- The events-snapshot merge from the events listener:
`[...MOCK_EVENTS.filter(m => !fetchedEvents.some(f => f.title === m.title)), ...fetchedEvents]`. -/
def mergedEvents (fetchedEvents : List Event) : List Event :=
  MOCK_EVENTS.filter (fun m => !(fetchedEvents.any (fun f => f.title == m.title)))
    ++ fetchedEvents

/-- One step of the `withRetry` loop.  The wrapped operation is modelled
as a function from the 0-based attempt index to an `Except` value
(exception or result).  `remaining` is the number of loop iterations
still to run (`maxRetries - i`); the result records the value produced
(`none` models the implicit `undefined` returned when the loop bound is
zero), the number of invocations of the operation, and the list of
back-off delays (in milliseconds) awaited between attempts. -/
def withRetryGo (fn : Nat → Except ε α) (maxRetries : Nat) :
    Nat → Nat → Option (Except ε α) × Nat × List Nat
  | 0, _ => (none, 0, [])
  | remaining + 1, i =>
    match fn i with
    | .ok a => (some (.ok a), 1, [])
    | .error e =>
      if i == maxRetries - 1 then
        (some (.error e), 1, [])
      else
        let r := withRetryGo fn maxRetries remaining (i + 1)
        (r.1, r.2.1 + 1, 2 ^ i * 1000 :: r.2.2)

/-- The `withRetry` wrapper: run the loop from attempt index 0 with
`maxRetries` iterations available. -/
def withRetry (fn : Nat → Except ε α) (maxRetries : Nat) :
    Option (Except ε α) × Nat × List Nat :=
  withRetryGo fn maxRetries maxRetries 0

/-- The two user roles. -/
inductive Role where
  | Teacher
  | Student
deriving DecidableEq, Repr

/-- The enumerated view names handled by the `renderView` switch. -/
inductive View where
  | InitialRoleChoice
  | Login
  | TeacherDashboard
  | StudentDashboard
  | EventCalendar
  | EventDetails
  | AddEvent
  | AddScores
  | ViewResults
  | NoticeBoard
  | StudentProfile
deriving DecidableEq, Repr

/-- A notice document: `{content, createdAt, createdBy}`. -/
structure Notice where
  id : String
  content : String
  createdAt : String
  createdBy : String
deriving DecidableEq, Repr

/-- One row of the scores form: `{studentId, studentName, score, rank}`. -/
structure ScoreEntry where
  studentId : String
  studentName : String
  score : String
  rank : String
deriving DecidableEq, Repr

/-- A score publication document as written by `AddScoresView.handleSubmit`. -/
structure ScorePayload where
  eventId : String
  eventTitle : String
  results : List ScoreEntry
  publishedAt : String
  teacherId : Option String
deriving DecidableEq, Repr

/-- The `App` component's state: the React `useState` hooks, with the
opaque Firestore handle abstracted to the boolean `db` (whether a store
handle exists). -/
structure AppState where
  error : Option String
  isAuthReady : Bool
  userRole : Option Role
  targetRole : Option Role
  userId : Option String
  view : View
  selectedEvent : Option (List Event)
  events : List Event
  notices : List Notice
  scores : List ScorePayload
  db : Bool
deriving DecidableEq, Repr

/-- What `renderView` renders, with the data each branch passes to the
rendered component. -/
inductive Rendered where
  | errorScreen (msg : String)
  | loading
  | initialRoleChoice
  | login (targetRole : Option Role)
  | teacherDashboard
  | studentDashboard
  | eventCalendar (events : List Event) (userRole : Option Role)
  | eventDetails (events : List Event)
  | addEvent
  | addScores (events : List Event)
  | accessDenied
  | viewResults (scores : List ScorePayload) (events : List Event)
  | noticeBoard (notices : List Notice) (userRole : Option Role)
  | loadingNotices
  | studentProfile
deriving DecidableEq, Repr

/-- The `renderView` switch of the `App` component: the error screen
short-circuits everything, then the auth-readiness spinner, then the
per-view cases.  `AddEvent`/`AddScores` render an Access Denied
placeholder unless the role is Teacher and a store handle exists;
`EventDetails` receives `selectedEvent || events`; `NoticeBoard`
requires a store handle. -/
def renderView (s : AppState) : Rendered :=
  match s.error with
  | some msg => .errorScreen msg
  | none =>
    if !s.isAuthReady then .loading
    else
      match s.view with
      | .InitialRoleChoice => .initialRoleChoice
      | .Login => .login s.targetRole
      | .TeacherDashboard => .teacherDashboard
      | .StudentDashboard => .studentDashboard
      | .EventCalendar => .eventCalendar s.events s.userRole
      | .EventDetails =>
          .eventDetails (match s.selectedEvent with
            | some l => l
            | none => s.events)
      | .AddEvent =>
          if s.userRole == some .Teacher && s.db then .addEvent else .accessDenied
      | .AddScores =>
          if s.userRole == some .Teacher && s.db then .addScores s.events
          else .accessDenied
      | .ViewResults => .viewResults s.scores s.events
      | .NoticeBoard =>
          if s.db then .noticeBoard s.notices s.userRole else .loadingNotices
      | .StudentProfile => .studentProfile

/-- The Log Out button of `TeacherDashboard`/`StudentDashboard`:
`onClick={() => setView('InitialRoleChoice')}`. -/
def dashboardLogout (s : AppState) : AppState :=
  { s with view := .InitialRoleChoice }

/-- The logout button in the fixed header:
`onClick={() => { setUserRole(null); setView('InitialRoleChoice'); }}`. -/
def headerLogout (s : AppState) : AppState :=
  { s with userRole := none, view := .InitialRoleChoice }

/-- Outcome of one run of the `onAuthStateChanged` callback: the user id
state, whether `setIsAuthReady(true)` was executed during this run, and
whether the run ended in an uncaught exception (a rejected `await` in
the `async` callback). -/
structure AuthObserverResult where
  userId : Option String
  isAuthReady : Bool
  threw : Bool
deriving DecidableEq, Repr

/-- One run of the auth-state observer callback registered in the
initialization effect.  `user` is the argument delivered by the
provider; `initialAuthToken` is the injected bootstrap token;
`customOk`/`anonOk` give the outcome of the corresponding awaited
sign-in call (`false` = the promise rejected, which aborts the `async`
callback before `setIsAuthReady(true)` is reached). -/
def authStateCallback (prevUserId : Option String) (user : Option String)
    (initialAuthToken : Option String) (customOk anonOk : Bool) :
    AuthObserverResult :=
  match user with
  | some u => { userId := some u, isAuthReady := true, threw := false }
  | none =>
    match initialAuthToken with
    | some _ =>
      if customOk then { userId := prevUserId, isAuthReady := true, threw := false }
      else { userId := prevUserId, isAuthReady := false, threw := true }
    | none =>
      if anonOk then { userId := prevUserId, isAuthReady := true, threw := false }
      else { userId := prevUserId, isAuthReady := false, threw := true }

/-- Error callback of the events listener:
`setError("Could not load events.")`.  Only the shared `error` state
changes; the collections and the other listeners are untouched. -/
def onEventsSnapshotError (s : AppState) : AppState :=
  { s with error := some "Could not load events." }

/-- Error callback of the notices listener:
`setError("Could not load notices.")`. -/
def onNoticesSnapshotError (s : AppState) : AppState :=
  { s with error := some "Could not load notices." }

/-- Error callback of the scores listener:
`setError("Could not load scores.")`. -/
def onScoresSnapshotError (s : AppState) : AppState :=
  { s with error := some "Could not load scores." }

/-- The month filter of `goToDetails` in `EventCalendarView`:
`events.filter(e => new Date(e.date).getMonth() === currentMonth && new Date(e.date).getFullYear() === currentYear)`. -/
def goToDetailsPayload (events : List Event) (currentMonth currentYear : Nat) :
    List Event :=
  events.filter (fun e => e.date.month == currentMonth && e.date.year == currentYear)

/-- The whole `goToDetails` click handler: store the month-filtered list
in `selectedEvent` and navigate to `EventDetails`. -/
def goToDetails (s : AppState) (currentMonth currentYear : Nat) : AppState :=
  { s with
      selectedEvent := some (goToDetailsPayload s.events currentMonth currentYear),
      view := .EventDetails }

/-- The sort in `EventDetailsView`:
`listToDisplay.sort((a, b) => new Date(a.date) - new Date(b.date))`,
i.e. a stable ascending sort by date. -/
def sortEventsByDate (l : List Event) : List Event :=
  l.mergeSort (fun a b => dateLe a.date b.date)

/-- One step of the grouping `reduce` in `EventDetailsView`: insert an
event into the accumulator object keyed by its date — append to the
existing key's list when present, otherwise add a new key at the end
(JavaScript objects preserve insertion order for these keys). -/
def groupInsert (acc : List (SDate × List Event)) (e : Event) :
    List (SDate × List Event) :=
  match acc with
  | [] => [(e.date, [e])]
  | (k, l) :: rest =>
    if k = e.date then (k, l ++ [e]) :: rest
    else (k, l) :: groupInsert rest e

/-- The grouping `reduce` of `EventDetailsView` over an event list. -/
def groupedEvents (l : List Event) : List (SDate × List Event) :=
  l.foldl groupInsert []

/-- The displayed structure of `EventDetailsView`: the received list is
sorted ascending by date and then grouped by date. -/
def eventDetailsGroups (l : List Event) : List (SDate × List Event) :=
  groupedEvents (sortEventsByDate l)

/-- The caller-visible effect of rendering `EventDetailsView` on the
application state: `Array.prototype.sort` sorts the received array in
place, so whichever cached array was passed (`selectedEvent` when set,
otherwise the live `events` collection) ends up reordered. -/
def renderEventDetailsEffect (s : AppState) : AppState :=
  match s.selectedEvent with
  | some l => { s with selectedEvent := some (sortEventsByDate l) }
  | none => { s with events := sortEventsByDate s.events }

/-- The caller-visible effect of opening the `ResultModal` in
`ViewResultsView` for the publication with document id `scoreId`:
`score.results.sort((a, b) => (a.rank || '').localeCompare(...))` sorts
the `results` array of the cached score object in place (`[...scores]`
copies only the outer array, so the nested `results` is the cached one).
The locale-aware rank collation is host/ICU behaviour — an opaque
external capability — so the comparator is a parameter `cmp`; the
mutation is the in-place stable sort by that comparator. -/
def resultModalEffect (cmp : ScoreEntry → ScoreEntry → Bool) (s : AppState)
    (scoreId : String) : AppState :=
  { s with scores := s.scores.map (fun sc =>
      if sc.eventId = scoreId then { sc with results := sc.results.mergeSort cmp }
      else sc) }

/-- The scores collection modelled as the store's list of documents,
each a (document id, data) pair; Firestore keeps document ids unique. -/
abbrev ScoresStore := List (String × ScorePayload)

/-- `setDoc` on the scores collection: replace the document with this id
when present, otherwise add it. -/
def setDocScores (store : ScoresStore) (key : String) (payload : ScorePayload) :
    ScoresStore :=
  if (List.any store (fun kv => kv.1 == key)) then
    List.map (fun kv => if kv.1 == key then (key, payload) else kv) store
  else
    store ++ [(key, payload)]

/-- `AddScoresView.handleSubmit`: no-op when no event is selected;
otherwise look up the event title (falling back to "Unknown Event" when
the event is missing or its title is empty), drop the score rows whose
`score` and `rank` are both empty, and `setDoc` the payload under the
document id `selectedEventId`. -/
def publishScores (store : ScoresStore) (events : List Event)
    (selectedEventId : String) (scoreData : List ScoreEntry)
    (now : String) (userId : Option String) : ScoresStore :=
  if selectedEventId = "" then store
  else
    let eventTitle :=
      match events.find? (fun e => e.id == selectedEventId) with
      | some e => if e.title = "" then "Unknown Event" else e.title
      | none => "Unknown Event"
    let validScores := scoreData.filter (fun s => !(s.score == "") || !(s.rank == ""))
    setDocScores store selectedEventId
      { eventId := selectedEventId, eventTitle := eventTitle,
        results := validScores, publishedAt := now, teacherId := userId }

/-- The fixed credential pair for a role (`MOCK_CREDENTIALS`). -/
def MOCK_CREDENTIALS (role : Role) : String × String :=
  match role with
  | .Teacher => ("teacher", "pass")
  | .Student => ("student", "pass")

/-- Outcome of the login form submission: either `onLogin(targetRole)`
is invoked, or an inline error message is set and no login happens. -/
inductive LoginOutcome where
  | login (role : Role)
  | invalid (msg : String)
deriving DecidableEq, Repr

/-- `LoginView.handleSubmit`: trim and lowercase the username, trim the
password (case preserved), and compare against the fixed credentials of
the target role. -/
def handleLoginSubmit (targetRole : Role) (username password : String) :
    LoginOutcome :=
  let inputUsername := username.trim.toLower
  let inputPassword := password.trim
  let expected := MOCK_CREDENTIALS targetRole
  if inputUsername == expected.1 && inputPassword == expected.2 then
    .login targetRole
  else
    .invalid "Invalid credentials. Please try again."

/-- A concrete application state used to instantiate the theorems:
auth ready, store handle present, seed events cached, nobody logged in. -/
def baseState : AppState :=
  { error := none, isAuthReady := true, userRole := none, targetRole := none,
    userId := some "uid-12345678", view := .InitialRoleChoice,
    selectedEvent := none, events := MOCK_EVENTS, notices := [], scores := [],
    db := true }

/-- A concrete live-fetched event sharing its title with the seed event
"Sports Day", used to instantiate the merge theorems. -/
def liveSportsDay : Event :=
  { id := "live-1", title := "Sports Day", date := ⟨2025, 10, 16⟩,
    description := "Rescheduled annual sports meet", category := "Sports" }

/-! ## Theorems -/

/-- C2: with an operation that fails on every attempt and `maxAttempts = 3`,
the retry wrapper invokes the operation exactly 3 times, awaits delays of
1000 ms and then 2000 ms after the first and second failed attempts (none
before the first attempt), and propagates the error of the last attempt
unchanged. -/
theorem withRetry_always_fails (fn : Nat → Except ε α) (errs : Nat → ε)
    (h : ∀ i, fn i = .error (errs i)) :
    withRetry fn 3 = (some (.error (errs 2)), 3, [1000, 2000]) := by
  simp [withRetry, withRetryGo, h 0, h 1, h 2]

/-- Witness for C2 at a concrete always-failing operation. -/
theorem withRetry_always_fails_witness :
    withRetry (fun i => (Except.error i : Except Nat Unit)) 3 =
      (some (Except.error 2), 3, [1000, 2000]) :=
  withRetry_always_fails _ id (fun _ => rfl)

/-- C4 counterexample: the dashboard Log Out button leaves the role set,
and the header logout leaves the transient selected-event payload set, so
the claim that every logout clears both fails at these concrete states. -/
theorem logout_counterexample :
    (dashboardLogout { baseState with userRole := some Role.Teacher }).userRole
        = some Role.Teacher ∧
    (dashboardLogout { baseState with userRole := some Role.Teacher }).userRole
        ≠ none ∧
    (headerLogout { baseState with userRole := some Role.Teacher, selectedEvent := some MOCK_EVENTS }).selectedEvent = some MOCK_EVENTS ∧
    (headerLogout { baseState with userRole := some Role.Teacher, selectedEvent := some MOCK_EVENTS }).selectedEvent ≠ none :=
  ⟨rfl, by simp [dashboardLogout], rfl, by simp [headerLogout]⟩

/-- C4 amended: both logout actions set the view to `InitialRoleChoice`;
the dashboard Log Out buttons change nothing else (the role and the
selected-event payload are kept), and the header logout additionally
clears the role but keeps the selected-event payload. -/
theorem logout_transitions (s : AppState) :
    (dashboardLogout s).view = View.InitialRoleChoice ∧
    (dashboardLogout s).userRole = s.userRole ∧
    (dashboardLogout s).selectedEvent = s.selectedEvent ∧
    (headerLogout s).view = View.InitialRoleChoice ∧
    (headerLogout s).userRole = none ∧
    (headerLogout s).selectedEvent = s.selectedEvent :=
  ⟨rfl, rfl, rfl, rfl, rfl, rfl⟩

/-- C5 counterexample: when no identity exists and the fallback sign-in
attempt fails, the rejected `await` aborts the `async` observer callback
before `setIsAuthReady(true)` is reached, so the session is NOT marked
ready — both for the anonymous and for the custom-token branch. -/
theorem authReady_failed_signin_counterexample :
    (authStateCallback none none none true false).isAuthReady = false ∧
    (authStateCallback none none (some "tok") false true).isAuthReady = false :=
  ⟨rfl, rfl⟩

/-- C5 amended: a run of the auth-state observer callback marks the
session ready exactly when it does not throw, and it throws exactly when
no identity exists and the sign-in branch it attempted failed; hence a
failed sign-in attempt leaves `isAuthReady` unset rather than `true`. -/
theorem authStateCallback_ready_iff (prev user tok : Option String) (c a : Bool) :
    ((authStateCallback prev user tok c a).isAuthReady = true ↔
      (authStateCallback prev user tok c a).threw = false) ∧
    ((authStateCallback prev user tok c a).threw = true ↔
      user = none ∧ ((tok.isSome ∧ c = false) ∨ (tok = none ∧ a = false))) := by
  cases user <;> cases tok <;> cases c <;> cases a <;> simp [authStateCallback]

/-- C6 counterexample: after any one listener's error callback fires,
`renderView` shows the full-screen error even when the current view
belongs to another collection, so the other collections do not remain
viewable — shown here for each of the three listeners. -/
theorem subscriptionError_blocks_other_views :
    (renderView (onEventsSnapshotError { baseState with view := View.NoticeBoard }) =
        Rendered.errorScreen "Could not load events." ∧
      Rendered.errorScreen "Could not load events." ≠
        Rendered.noticeBoard baseState.notices baseState.userRole) ∧
    (renderView (onNoticesSnapshotError { baseState with view := View.EventCalendar }) =
        Rendered.errorScreen "Could not load notices." ∧
      Rendered.errorScreen "Could not load notices." ≠
        Rendered.eventCalendar baseState.events baseState.userRole) ∧
    (renderView (onScoresSnapshotError { baseState with view := View.ViewResults }) =
        Rendered.errorScreen "Could not load scores." ∧
      Rendered.errorScreen "Could not load scores." ≠
        Rendered.viewResults baseState.scores baseState.events) :=
  ⟨⟨rfl, by simp⟩, ⟨rfl, by simp⟩, ⟨rfl, by simp⟩⟩

/-- C6 amended: each of the three listeners' error callbacks changes only
the single shared `error` message — the cached events, notices and scores
collections (and the other listeners) are untouched — but that shared
message makes `renderView` show a full-screen error for every view, so no
collection remains viewable while it is set. -/
theorem listenerError_effects (s : AppState) :
    ((onEventsSnapshotError s).events = s.events ∧
      (onEventsSnapshotError s).notices = s.notices ∧
      (onEventsSnapshotError s).scores = s.scores ∧
      (onEventsSnapshotError s).error = some "Could not load events." ∧
      renderView (onEventsSnapshotError s) =
        Rendered.errorScreen "Could not load events.") ∧
    ((onNoticesSnapshotError s).events = s.events ∧
      (onNoticesSnapshotError s).notices = s.notices ∧
      (onNoticesSnapshotError s).scores = s.scores ∧
      (onNoticesSnapshotError s).error = some "Could not load notices." ∧
      renderView (onNoticesSnapshotError s) =
        Rendered.errorScreen "Could not load notices.") ∧
    ((onScoresSnapshotError s).events = s.events ∧
      (onScoresSnapshotError s).notices = s.notices ∧
      (onScoresSnapshotError s).scores = s.scores ∧
      (onScoresSnapshotError s).error = some "Could not load scores." ∧
      renderView (onScoresSnapshotError s) =
        Rendered.errorScreen "Could not load scores.") :=
  ⟨⟨rfl, rfl, rfl, rfl, rfl⟩, ⟨rfl, rfl, rfl, rfl, rfl⟩, ⟨rfl, rfl, rfl, rfl, rfl⟩⟩

/-- C10: the login submission succeeds — invoking `onLogin` with the
target role — exactly when the username, trimmed and lowercased, equals
the role's fixed username and the password, trimmed with case preserved,
equals the fixed password; otherwise it sets the inline error message and
performs no login. -/
theorem handleLoginSubmit_spec (role : Role) (u p : String) :
    (handleLoginSubmit role u p = LoginOutcome.login role ↔
      (u.trim.toLower = (MOCK_CREDENTIALS role).1 ∧
       p.trim = (MOCK_CREDENTIALS role).2)) ∧
    (handleLoginSubmit role u p = LoginOutcome.login role ∨
      handleLoginSubmit role u p =
        LoginOutcome.invalid "Invalid credentials. Please try again.") := by
  unfold handleLoginSubmit
  by_cases h1 : u.trim.toLower = (MOCK_CREDENTIALS role).1 <;>
    by_cases h2 : p.trim = (MOCK_CREDENTIALS role).2 <;>
      simp [h1, h2]

/-- C3 counterexample: a Student targeting `AddEvent` is shown an inline
Access Denied placeholder, not their dashboard — there is no redirect
(the rendered output differs from the student dashboard and the view
state is untouched by rendering). -/
theorem accessDenied_no_redirect_counterexample :
    renderView { baseState with userRole := some Role.Student, view := View.AddEvent } =
      Rendered.accessDenied ∧
    Rendered.accessDenied ≠ Rendered.studentDashboard :=
  ⟨rfl, by simp⟩

/-- C3 amended: a Student targeting `AddEvent` or `AddScores` is denied —
`renderView` renders an Access Denied placeholder in place of the target
view (no exception, no error state, and no redirect: the view state is
unchanged); a Teacher with a store handle is allowed; no other
(role, view) pair ever produces the denial placeholder. -/
theorem accessGate_policy (s : AppState) (he : s.error = none)
    (ha : s.isAuthReady = true) :
    (s.view = View.AddEvent → s.userRole = some Role.Student →
      renderView s = Rendered.accessDenied) ∧
    (s.view = View.AddScores → s.userRole = some Role.Student →
      renderView s = Rendered.accessDenied) ∧
    (s.view = View.AddEvent → s.userRole = some Role.Teacher → s.db = true →
      renderView s = Rendered.addEvent) ∧
    (s.view = View.AddScores → s.userRole = some Role.Teacher → s.db = true →
      renderView s = Rendered.addScores s.events) ∧
    (s.view ≠ View.AddEvent → s.view ≠ View.AddScores →
      renderView s ≠ Rendered.accessDenied) := by
  unfold renderView
  rw [he, ha]
  cases hv : s.view <;> simp [hv]
  case AddEvent =>
    refine ⟨fun h1 h2 => ?_, fun h1 h2 => ⟨h1, h2⟩⟩
    rw [h1] at h2
    simp at h2
  case AddScores =>
    refine ⟨fun h1 h2 => ?_, fun h1 h2 => ⟨h1, h2⟩⟩
    rw [h1] at h2
    simp at h2
  case NoticeBoard =>
    intro hcontra
    split at hcontra <;> simp at hcontra

/-- Witness for C3 amended at a concrete state: a Student targeting
`AddScores` gets the denial placeholder. -/
theorem accessGate_policy_witness :
    renderView { baseState with userRole := some Role.Student, view := View.AddScores } =
      Rendered.accessDenied :=
  (accessGate_policy
    { baseState with userRole := some Role.Student, view := View.AddScores }
    rfl rfl).2.1 rfl rfl

/-- C1: the merged event list is the seed events whose title matches no
fetched event's title (kept in seed order) followed by all fetched events
in store order; and when a seed event shares its title with the only
fetched event carrying that title, the merged list contains exactly one
entry with that title, namely the fetched one. -/
theorem mergedEvents_seed_suppression (fetched : List Event) (t : String)
    (f : Event)
    (hseed : ∃ m ∈ MOCK_EVENTS, m.title = t)
    (hone : fetched.filter (fun x => x.title == t) = [f]) :
    mergedEvents fetched =
      MOCK_EVENTS.filter (fun m => decide (∀ x ∈ fetched, x.title ≠ m.title))
        ++ fetched ∧
    (mergedEvents fetched).filter (fun x => x.title == t) = [f] := by
  have hmem : f ∈ fetched ∧ f.title = t := by
    have : f ∈ fetched.filter (fun x => x.title == t) := by
      rw [hone]; exact List.mem_singleton_self f
    have h2 := List.mem_filter.mp this
    exact ⟨h2.1, by simpa using h2.2⟩
  have hfil : MOCK_EVENTS.filter
      (fun m => !(fetched.any (fun x => x.title == m.title))) =
      MOCK_EVENTS.filter (fun m => decide (∀ x ∈ fetched, x.title ≠ m.title)) := by
    apply List.filter_congr
    intro m _
    by_cases h : ∀ x ∈ fetched, x.title ≠ m.title
    · have hf : fetched.any (fun x => x.title == m.title) = false := by
        rw [List.any_eq_false]
        intro x hx
        simpa using h x hx
      simpa [hf] using h
    · have hf : fetched.any (fun x => x.title == m.title) = true := by
        rw [List.any_eq_true]
        push_neg at h
        obtain ⟨x, hx, hxt⟩ := h
        exact ⟨x, hx, by simp [hxt]⟩
      simp [hf, h]
  constructor
  · unfold mergedEvents
    rw [hfil]
  · unfold mergedEvents
    rw [List.filter_append, hone]
    have hnil : (MOCK_EVENTS.filter
        (fun m => !(fetched.any (fun x => x.title == m.title)))).filter
        (fun x => x.title == t) = [] := by
      rw [List.filter_eq_nil_iff]
      intro m hm
      have h1 := (List.mem_filter.mp hm).2
      intro ht
      have htm : m.title = t := by simpa using ht
      have : fetched.any (fun x => x.title == m.title) = true := by
        rw [List.any_eq_true]
        exact ⟨f, hmem.1, by simp [hmem.2, htm]⟩
      simp [this] at h1
    rw [hnil, List.nil_append]

/-- Witness for C1: "Sports Day" is both a seed title and the title of
exactly one fetched event; the merged list keeps only the fetched copy. -/
theorem mergedEvents_seed_suppression_witness :
    mergedEvents [liveSportsDay] =
      MOCK_EVENTS.filter (fun m => decide (∀ x ∈ [liveSportsDay], x.title ≠ m.title))
        ++ [liveSportsDay] ∧
    (mergedEvents [liveSportsDay]).filter (fun x => x.title == "Sports Day") =
      [liveSportsDay] :=
  mergedEvents_seed_suppression _ "Sports Day" _ (by decide) (by decide)

/-- After a `setDoc` on the scores collection, every document carrying
the written key is exactly the written document. -/
theorem setDocScores_mem (store : ScoresStore) (key : String)
    (payload : ScorePayload) :
    ∀ kv ∈ setDocScores store key payload, kv.1 = key → kv = (key, payload) := by
  unfold setDocScores
  by_cases hany : store.any (fun kv => kv.1 == key) = true
  · simp only [hany, if_true]
    intro kv hkv hk
    obtain ⟨kv₀, _, hkv₀⟩ := List.mem_map.mp hkv
    by_cases h0 : kv₀.1 = key
    · simp [h0] at hkv₀
      exact hkv₀.symm
    · simp [h0] at hkv₀
      rw [← hkv₀] at hk
      exact absurd hk h0
  · have hany' : store.any (fun kv => kv.1 == key) = false :=
      Bool.eq_false_iff.mpr hany
    simp only [hany', Bool.false_eq_true, if_false]
    intro kv hkv hk
    rcases List.mem_append.mp hkv with hin | hin
    · exfalso
      rw [List.any_eq_false] at hany'
      exact hany' kv hin (by simp [hk])
    · simpa using hin

/-- After a `setDoc` on a scores collection holding at most one document
with the written key, exactly one document carries that key. -/
theorem setDocScores_countP (store : ScoresStore) (key : String)
    (payload : ScorePayload)
    (h : store.countP (fun kv => kv.1 == key) ≤ 1) :
    (setDocScores store key payload).countP (fun kv => kv.1 == key) = 1 := by
  unfold setDocScores
  by_cases hany : store.any (fun kv => kv.1 == key) = true
  · simp only [hany, if_true]
    rw [List.countP_map]
    have heq : store.countP
        ((fun kv : String × ScorePayload => kv.1 == key) ∘
          (fun kv => if kv.1 == key then (key, payload) else kv)) =
        store.countP (fun kv => kv.1 == key) := by
      apply List.countP_congr
      intro kv _
      by_cases hk : kv.1 = key <;> simp [hk]
    rw [heq]
    have hpos : 0 < store.countP (fun kv => kv.1 == key) := by
      rw [List.countP_pos_iff]
      simpa [List.any_eq_true] using hany
    omega
  · have hany' : store.any (fun kv => kv.1 == key) = false :=
      Bool.eq_false_iff.mpr hany
    simp only [hany', Bool.false_eq_true, if_false, List.countP_append]
    have h0 : store.countP (fun kv => kv.1 == key) = 0 := by
      rw [List.countP_eq_zero]
      rw [List.any_eq_false] at hany'
      exact hany'
    simp [h0, List.countP_cons]

/-- The boolean filter of `handleSubmit`
(`scoreData.filter(s => s.score || s.rank)`) keeps exactly the entries
whose score and rank are not both empty. -/
theorem validScores_filter_eq (sd : List ScoreEntry) :
    sd.filter (fun s => !(s.score == "") || !(s.rank == "")) =
      sd.filter (fun r => decide (¬(r.score = "" ∧ r.rank = ""))) := by
  apply List.filter_congr
  intro r _
  by_cases h1 : r.score = "" <;> by_cases h2 : r.rank = "" <;> simp [h1, h2]

/-- C8: publishing scores writes under the document key `selectedEventId`,
so publishing twice for the same event id leaves exactly one score
publication with that key; that publication carries the latest
`results`/`publishedAt`, its `eventId` equals the key, and its persisted
results are the submitted rows minus those whose score and rank are both
empty. -/
theorem publishScores_upsert (store : ScoresStore) (events : List Event)
    (id : String) (sd1 sd2 : List ScoreEntry) (t1 t2 : String)
    (uid : Option String)
    (hid : id ≠ "")
    (hkey : store.countP (fun kv => kv.1 == id) ≤ 1) :
    (publishScores (publishScores store events id sd1 t1 uid) events id sd2 t2 uid).countP
        (fun kv => kv.1 == id) = 1 ∧
    (∀ kv ∈ publishScores (publishScores store events id sd1 t1 uid) events id sd2 t2 uid,
      kv.1 = id →
        kv.2.eventId = id ∧ kv.2.publishedAt = t2 ∧
        kv.2.results = sd2.filter (fun r => decide (¬(r.score = "" ∧ r.rank = "")))) := by
  unfold publishScores
  simp only [hid, if_false]
  have hc1 := setDocScores_countP store id
    { eventId := id,
      eventTitle := match events.find? (fun e => e.id == id) with
        | some e => if e.title = "" then "Unknown Event" else e.title
        | none => "Unknown Event",
      results := sd1.filter (fun s => !(s.score == "") || !(s.rank == "")),
      publishedAt := t1, teacherId := uid } hkey
  refine ⟨setDocScores_countP _ id _ (by omega), ?_⟩
  intro kv hkv hk
  have := setDocScores_mem _ id _ kv hkv hk
  rw [this]
  exact ⟨rfl, rfl, validScores_filter_eq sd2⟩

/-- Witness for C8 at concrete data: two publishes for event id "1"
(the second with one fully-empty row, which is dropped) leave exactly one
document keyed "1". -/
theorem publishScores_upsert_witness :
    (publishScores (publishScores [] MOCK_EVENTS "1" [] "2025-10-16T00:00:00Z" none)
        MOCK_EVENTS "1"
        [ { studentId := "student-A", studentName := "Alfie B.", score := "9.5s", rank := "1st" },
          { studentId := "student-B", studentName := "Betty C.", score := "", rank := "" } ]
        "2025-10-17T00:00:00Z" none).countP (fun kv => kv.1 == "1") = 1 :=
  (publishScores_upsert [] MOCK_EVENTS "1" []
    [ { studentId := "student-A", studentName := "Alfie B.", score := "9.5s", rank := "1st" },
      { studentId := "student-B", studentName := "Betty C.", score := "", rank := "" } ]
    "2025-10-16T00:00:00Z" "2025-10-17T00:00:00Z" none (by decide) (by decide)).1

/-- The date order used by the details-view sort is transitive. -/
theorem dateLe_trans (a b c : SDate) (h1 : dateLe a b = true)
    (h2 : dateLe b c = true) : dateLe a c = true := by
  simp only [dateLe, Bool.or_eq_true, Bool.and_eq_true, decide_eq_true_eq,
    beq_iff_eq] at h1 h2 ⊢
  omega

/-- The date order used by the details-view sort is total. -/
theorem dateLe_total (a b : SDate) : (dateLe a b || dateLe b a) = true := by
  simp only [dateLe, Bool.or_eq_true, Bool.and_eq_true, decide_eq_true_eq,
    beq_iff_eq]
  omega

/-- The details-view sort produces a list that is sorted ascending by
date. -/
theorem sortEventsByDate_sorted (l : List Event) :
    (sortEventsByDate l).Pairwise (fun a b => dateLe a.date b.date = true) := by
  exact List.sorted_mergeSort
    (fun a b c hab hbc => dateLe_trans a.date b.date c.date hab hbc)
    (fun a b => dateLe_total a.date b.date) l

/-- The details-view sort permutes its input. -/
theorem sortEventsByDate_perm (l : List Event) :
    List.Perm (sortEventsByDate l) l :=
  List.mergeSort_perm l _

/-- Inserting an event whose date is already a group key leaves the key
list unchanged. -/
theorem groupInsert_fst_of_mem (acc : List (SDate × List Event)) (e : Event)
    (h : e.date ∈ acc.map Prod.fst) :
    (groupInsert acc e).map Prod.fst = acc.map Prod.fst := by
  induction acc with
  | nil => simp at h
  | cons p rest ih =>
    obtain ⟨k, l⟩ := p
    by_cases hk : k = e.date
    · simp [groupInsert, hk]
    · have h' : e.date ∈ rest.map Prod.fst := by
        simp only [List.map_cons] at h
        rcases List.mem_cons.mp h with h | h
        · exact absurd h.symm hk
        · exact h
      simp [groupInsert, hk, ih h']

/-- Inserting an event whose date is not yet a group key appends that
date at the end of the key list. -/
theorem groupInsert_fst_of_not_mem (acc : List (SDate × List Event)) (e : Event)
    (h : e.date ∉ acc.map Prod.fst) :
    (groupInsert acc e).map Prod.fst = acc.map Prod.fst ++ [e.date] := by
  induction acc with
  | nil => simp [groupInsert]
  | cons p rest ih =>
    obtain ⟨k, l⟩ := p
    have hk : ¬k = e.date := by
      intro hkk
      exact h (by simp [hkk])
    have h' : e.date ∉ rest.map Prod.fst := by
      intro hmem
      exact h (by simp [hmem])
    simp [groupInsert, hk, ih h']

/-- Group insertion preserves the invariant that every event in a group
carries the group's date key. -/
theorem groupInsert_dates (acc : List (SDate × List Event)) (e : Event)
    (h : ∀ p ∈ acc, ∀ x ∈ p.2, x.date = p.1) :
    ∀ p ∈ groupInsert acc e, ∀ x ∈ p.2, x.date = p.1 := by
  induction acc with
  | nil =>
    intro p hp x hx
    simp only [groupInsert, List.mem_singleton] at hp
    subst hp
    have hxe : x = e := by simpa using hx
    subst hxe
    rfl
  | cons q rest ih =>
    obtain ⟨k, l⟩ := q
    intro p hp x hx
    by_cases hk : k = e.date
    · simp only [groupInsert, if_pos hk] at hp
      rcases List.mem_cons.mp hp with rfl | hp'
      · rcases List.mem_append.mp hx with hxl | hxe
        · exact h (k, l) (List.mem_cons_self _ _) x hxl
        · have hxe' : x = e := by simpa using hxe
          subst hxe'
          exact hk.symm
      · exact h p (List.mem_cons_of_mem _ hp') x hx
    · simp only [groupInsert, if_neg hk] at hp
      rcases List.mem_cons.mp hp with rfl | hp'
      · exact h (k, l) (List.mem_cons_self _ _) x hx
      · exact ih (fun q hq => h q (List.mem_cons_of_mem _ hq)) p hp' x hx

/-- Group insertion never produces an empty group. -/
theorem groupInsert_ne_nil (acc : List (SDate × List Event)) (e : Event)
    (h : ∀ p ∈ acc, p.2 ≠ []) :
    ∀ p ∈ groupInsert acc e, p.2 ≠ [] := by
  induction acc with
  | nil =>
    intro p hp
    simp only [groupInsert, List.mem_singleton] at hp
    subst hp
    simp
  | cons q rest ih =>
    obtain ⟨k, l⟩ := q
    intro p hp
    by_cases hk : k = e.date
    · simp only [groupInsert, if_pos hk] at hp
      rcases List.mem_cons.mp hp with rfl | hp'
      · simp
      · exact h p (List.mem_cons_of_mem _ hp')
    · simp only [groupInsert, if_neg hk] at hp
      rcases List.mem_cons.mp hp with rfl | hp'
      · exact h (k, l) (List.mem_cons_self _ _)
      · exact ih (fun q hq => h q (List.mem_cons_of_mem _ hq)) p hp'

/-- Group insertion adds exactly the inserted event to the grouped
contents, up to permutation. -/
theorem groupInsert_join (acc : List (SDate × List Event)) (e : Event) :
    List.Perm ((groupInsert acc e).map Prod.snd).flatten
      ((acc.map Prod.snd).flatten ++ [e]) := by
  induction acc with
  | nil => simp [groupInsert]
  | cons q rest ih =>
    obtain ⟨k, l⟩ := q
    by_cases hk : k = e.date
    · simp only [groupInsert, if_pos hk, List.map_cons, List.flatten_cons]
      rw [List.append_assoc l [e] ((rest.map Prod.snd)).flatten,
        List.append_assoc l ((rest.map Prod.snd)).flatten [e]]
      exact List.Perm.append_left l List.perm_append_comm
    · simp only [groupInsert, if_neg hk, List.map_cons, List.flatten_cons]
      rw [List.append_assoc l ((rest.map Prod.snd)).flatten [e]]
      exact List.Perm.append_left l ih

/-- Folding the grouping step over a date-sorted event list preserves the
grouping invariants: strictly ascending keys, date-homogeneous non-empty
groups, and contents that are a permutation of everything inserted. -/
theorem groupedFold_spec :
    ∀ (l : List Event) (acc : List (SDate × List Event)),
      List.Pairwise (fun a b : Event => dateLe a.date b.date = true) l →
      ((acc.map Prod.fst).Pairwise dateLt) →
      (∀ p ∈ acc, ∀ x ∈ p.2, x.date = p.1) →
      (∀ p ∈ acc, p.2 ≠ []) →
      (∀ k ∈ acc.map Prod.fst, ∀ e ∈ l, dateLe k e.date = true) →
      ((l.foldl groupInsert acc).map Prod.fst).Pairwise dateLt ∧
      (∀ p ∈ l.foldl groupInsert acc, ∀ x ∈ p.2, x.date = p.1) ∧
      (∀ p ∈ l.foldl groupInsert acc, p.2 ≠ []) ∧
      List.Perm ((l.foldl groupInsert acc).map Prod.snd).flatten
        ((acc.map Prod.snd).flatten ++ l)
  | [], acc, _, hkeys, hdates, hne, _ =>
    ⟨hkeys, hdates, hne, by simp⟩
  | e :: l, acc, hsorted, hkeys, hdates, hne, hbound => by
    rw [List.foldl_cons]
    have hhead := (List.pairwise_cons.mp hsorted).1
    have hsorted' := (List.pairwise_cons.mp hsorted).2
    have hkeys' : ((groupInsert acc e).map Prod.fst).Pairwise dateLt := by
      by_cases hm : e.date ∈ acc.map Prod.fst
      · rw [groupInsert_fst_of_mem acc e hm]
        exact hkeys
      · rw [groupInsert_fst_of_not_mem acc e hm]
        rw [List.pairwise_append]
        refine ⟨hkeys, List.pairwise_singleton _ _, ?_⟩
        intro k hk d hd
        have hd' : d = e.date := by simpa using hd
        subst hd'
        refine ⟨hbound k hk e (List.mem_cons_self _ _), ?_⟩
        intro hkd
        exact hm (hkd ▸ hk)
    have hbound' : ∀ k ∈ (groupInsert acc e).map Prod.fst, ∀ x ∈ l,
        dateLe k x.date = true := by
      intro k hk x hx
      by_cases hm : e.date ∈ acc.map Prod.fst
      · rw [groupInsert_fst_of_mem acc e hm] at hk
        exact hbound k hk x (List.mem_cons_of_mem _ hx)
      · rw [groupInsert_fst_of_not_mem acc e hm] at hk
        rcases List.mem_append.mp hk with hk | hk
        · exact hbound k hk x (List.mem_cons_of_mem _ hx)
        · have hke : k = e.date := by simpa using hk
          subst hke
          exact hhead x hx
    obtain ⟨r1, r2, r3, r4⟩ := groupedFold_spec l (groupInsert acc e) hsorted'
      hkeys' (groupInsert_dates acc e hdates) (groupInsert_ne_nil acc e hne)
      hbound'
    refine ⟨r1, r2, r3, ?_⟩
    have hj := r4.trans (List.Perm.append_right l (groupInsert_join acc e))
    simpa using hj

/-- The displayed grouping of `EventDetailsView` (sort ascending by date,
then group by date) has strictly ascending keys, date-homogeneous
non-empty groups, and displays exactly the received events. -/
theorem eventDetailsGroups_spec (l : List Event) :
    ((eventDetailsGroups l).map Prod.fst).Pairwise dateLt ∧
    (∀ p ∈ eventDetailsGroups l, ∀ x ∈ p.2, x.date = p.1) ∧
    (∀ p ∈ eventDetailsGroups l, p.2 ≠ []) ∧
    List.Perm ((eventDetailsGroups l).map Prod.snd).flatten l := by
  unfold eventDetailsGroups groupedEvents
  obtain ⟨r1, r2, r3, r4⟩ := groupedFold_spec (sortEventsByDate l) []
    (sortEventsByDate_sorted l) (by simp) (by simp) (by simp) (by simp)
  refine ⟨r1, r2, r3, ?_⟩
  have h2 : List.Perm
      ((List.foldl groupInsert [] (sortEventsByDate l)).map Prod.snd).flatten
      (sortEventsByDate l) := by
    simpa using r4
  exact h2.trans (sortEventsByDate_perm l)

/-- C7: selecting "Go to Event Details" from the calendar sets the
details payload to exactly the events of the displayed month and year and
navigates to `EventDetails`; the details view shows the payload grouped
by date with strictly ascending date keys, each group holding exactly the
events of its date; and entering `EventDetails` without a payload renders
the full live event collection. -/
theorem calendar_goToDetails_spec (events : List Event) (m y : Nat)
    (s : AppState) (he : s.error = none) (ha : s.isAuthReady = true) :
    (∀ e, e ∈ goToDetailsPayload events m y ↔
      (e ∈ events ∧ e.date.month = m ∧ e.date.year = y)) ∧
    (goToDetails s m y).view = View.EventDetails ∧
    (goToDetails s m y).selectedEvent =
      some (goToDetailsPayload s.events m y) ∧
    ((eventDetailsGroups (goToDetailsPayload events m y)).map Prod.fst).Pairwise dateLt ∧
    (∀ p ∈ eventDetailsGroups (goToDetailsPayload events m y),
      ∀ x ∈ p.2, x.date = p.1) ∧
    List.Perm ((eventDetailsGroups (goToDetailsPayload events m y)).map Prod.snd).flatten
      (goToDetailsPayload events m y) ∧
    (s.view = View.EventDetails → s.selectedEvent = none →
      renderView s = Rendered.eventDetails s.events) := by
  obtain ⟨g1, g2, _, g4⟩ := eventDetailsGroups_spec (goToDetailsPayload events m y)
  refine ⟨?_, rfl, rfl, g1, g2, g4, ?_⟩
  · intro e
    simp [goToDetailsPayload, List.mem_filter]
  · intro hv hsel
    simp [renderView, he, ha, hv, hsel]

/-- Witness for C7: entering `EventDetails` directly (no payload) at a
concrete ready state renders the full live event collection. -/
theorem calendar_goToDetails_spec_witness :
    renderView { baseState with view := View.EventDetails } =
      Rendered.eventDetails MOCK_EVENTS :=
  (calendar_goToDetails_spec MOCK_EVENTS 11 2025
    { baseState with view := View.EventDetails } rfl rfl).2.2.2.2.2.2 rfl rfl

/-- C9 counterexample: rendering `EventDetailsView` sorts the received
array in place; with the cached events in store order (date descending)
the cached collection is changed by rendering. -/
theorem eventDetails_mutation_counterexample :
    (renderEventDetailsEffect { baseState with view := View.EventDetails, events := MOCK_EVENTS.reverse }).events ≠ MOCK_EVENTS.reverse := by
  intro h
  have h' : sortEventsByDate (MOCK_EVENTS.reverse) = MOCK_EVENTS.reverse := h
  have hs := sortEventsByDate_sorted (MOCK_EVENTS.reverse)
  rw [h'] at hs
  exact (by decide :
    ¬(MOCK_EVENTS.reverse).Pairwise (fun a b => dateLe a.date b.date = true)) hs

/-- Mapping a function over a list relates the image to the original
pointwise under `Forall₂`. -/
theorem forall2_map_refl {γ : Type} (R : γ → γ → Prop) (f : γ → γ)
    (l : List γ) (h : ∀ x ∈ l, R (f x) x) : List.Forall₂ R (l.map f) l := by
  induction l with
  | nil => exact List.Forall₂.nil
  | cons a l ih =>
    exact List.Forall₂.cons (h a (List.mem_cons_self _ _))
      (ih (fun x hx => h x (List.mem_cons_of_mem _ hx)))

/-- C9 amended: rendering writes no entries into and deletes no entries
from the cached collections, but two views reorder cached arrays in
place: `EventDetailsView` sorts the event array it is handed (the events
cache or the payload) into ascending date order, and the `ResultModal`
of `ViewResultsView` sorts the selected publication's cached `results`
array by rank; each mutation leaves a permutation of the original data
with every other field and collection untouched. -/
theorem views_render_permute_only (s : AppState)
    (cmp : ScoreEntry → ScoreEntry → Bool) (scoreId : String) :
    (renderEventDetailsEffect s).notices = s.notices ∧
    (renderEventDetailsEffect s).scores = s.scores ∧
    List.Perm (renderEventDetailsEffect s).events s.events ∧
    List.Perm ((renderEventDetailsEffect s).selectedEvent.getD [])
      (s.selectedEvent.getD []) ∧
    (resultModalEffect cmp s scoreId).notices = s.notices ∧
    (resultModalEffect cmp s scoreId).events = s.events ∧
    List.Forall₂ (fun sc' sc =>
        sc'.eventId = sc.eventId ∧ sc'.eventTitle = sc.eventTitle ∧
        sc'.publishedAt = sc.publishedAt ∧ sc'.teacherId = sc.teacherId ∧
        List.Perm sc'.results sc.results)
      (resultModalEffect cmp s scoreId).scores s.scores := by
  have hdetails :
      (renderEventDetailsEffect s).notices = s.notices ∧
      (renderEventDetailsEffect s).scores = s.scores ∧
      List.Perm (renderEventDetailsEffect s).events s.events ∧
      List.Perm ((renderEventDetailsEffect s).selectedEvent.getD [])
        (s.selectedEvent.getD []) := by
    unfold renderEventDetailsEffect
    cases hsel : s.selectedEvent with
    | none =>
      exact ⟨rfl, rfl, sortEventsByDate_perm s.events, List.Perm.refl _⟩
    | some l =>
      refine ⟨rfl, rfl, List.Perm.refl _, ?_⟩
      simpa using sortEventsByDate_perm l
  refine ⟨hdetails.1, hdetails.2.1, hdetails.2.2.1, hdetails.2.2.2, rfl, rfl, ?_⟩
  apply forall2_map_refl
  intro sc _
  by_cases h : sc.eventId = scoreId
  · rw [if_pos h]
    exact ⟨rfl, rfl, rfl, rfl, List.mergeSort_perm sc.results cmp⟩
  · rw [if_neg h]
    exact ⟨rfl, rfl, rfl, rfl, List.Perm.refl _⟩

end SchoolLink
